import Mathlib

/-!
Verification development for the crypto-analyst-ui gateway.

The definitions below are a shallow embedding of the TypeScript source:
the chat route (cadence limiter, retry wrapper, stream accumulation and
HTTP mapping) and the top-crypto route (filter, sort, truncate).
Timestamps are naturals (milliseconds, as produced by Date.now());
lag arithmetic is over the integers; backoff durations are rationals
because the jitter term is a real-valued random sample.
-/

/-! ## Cadence limiter (enforceCadence) -/

/-- SESSION_DELAY = 2000: 2s between requests for a single chat session. -/
def SESSION_DELAY : Int := 2000

/-- GLOBAL_DELAY = 800: about 1 req/s across all sessions. -/
def GLOBAL_DELAY : Int := 800

/-- Mutable pacing state of the route module: the per-session map
lastCallPerSession (None models a missing map entry) and the scalar
lastGlobalCall (initialised to 0). -/
structure CadenceState where
  lastCallPerSession : String → Option Nat
  lastGlobalCall : Nat

/-- Reads lastCallPerSession.get(sessionId) with the source fallback
(... || 0) for a missing entry. -/
def sessionLast (st : CadenceState) (sid : String) : Nat :=
  (st.lastCallPerSession sid).getD 0

/-- sessionLag = (lastCallPerSession.get(sessionId) || 0) + SESSION_DELAY - now. -/
def sessionLag (st : CadenceState) (sid : String) (now : Nat) : Int :=
  ((sessionLast st sid : Int) + SESSION_DELAY) - (now : Int)

/-- globalLag = lastGlobalCall + GLOBAL_DELAY - now. -/
def globalLag (st : CadenceState) (now : Nat) : Int :=
  ((st.lastGlobalCall : Int) + GLOBAL_DELAY) - (now : Int)

/-- waitFor = Math.max(sessionLag, globalLag, 0). -/
def waitFor (st : CadenceState) (sid : String) (now : Nat) : Int :=
  max (max (sessionLag st sid now) (globalLag st now)) 0

/-- The tail of enforceCadence: timestamp = Date.now();
lastCallPerSession.set(sessionId, timestamp); lastGlobalCall = timestamp. -/
def recordCall (st : CadenceState) (sid : String) (ts : Nat) : CadenceState :=
  { lastCallPerSession := fun s => if s = sid then some ts else st.lastCallPerSession s
    lastGlobalCall := ts }

/-- enforceCadence as a state transformer: ts is the Date.now() value read
after the optional await sleep(waitFor); the recorded state update. -/
def enforceCadence (st : CadenceState) (sid : String) (ts : Nat) : CadenceState :=
  recordCall st sid ts

/-- The contract of the optional sleep in enforceCadence: the wake-up read
ts of Date.now() is at least the entry read now plus the computed wait
(setTimeout never fires early; when waitFor = 0 no sleep happens and the
clock is merely monotone). -/
def sleepElapsed (st : CadenceState) (sid : String) (now ts : Nat) : Prop :=
  (now : Int) + waitFor st sid now ≤ (ts : Int)

/-- Modelled from the wording of the specification (not from the source):
required wait = max(sessionReadyAt - now, globalReadyAt - now, 0) with
sessionReadyAt = lastSessionCall[sessionId] + SESSION_DELAY (missing entry
defaulting to 0) and globalReadyAt = lastGlobalCall + GLOBAL_DELAY.
Compared against the source-derived waitFor in the C1 theorem. -/
def specRequiredWait (st : CadenceState) (sid : String) (now : Nat) : Int :=
  max (max (((sessionLast st sid : Int) + SESSION_DELAY) - (now : Int))
           (((st.lastGlobalCall : Int) + GLOBAL_DELAY) - (now : Int))) 0

/-! ## Retry wrapper (callBedrockWithRetry) -/

/-- A thrown JavaScript error as inspected by the route: its name field and
its message field (a missing message is collapsed to the empty string by
the source fallback, so message is total here). -/
structure JsErr where
  name : String
  message : String
deriving DecidableEq

/-- Substring test modelling JavaScript String.prototype.includes. -/
def hasSubstr (pat s : String) : Bool :=
  decide (pat.data <:+: s.data)

/-- The throttling test of the catch block: the message contains the
request-rate substring, or the error name equals ThrottlingException. -/
def isThrottling (e : JsErr) : Bool :=
  hasSubstr "Your request rate is too high" e.message || e.name == "ThrottlingException"

/-- Modelled from the wording of the specification (not from the source):
a failure is retryable exactly when its name equals the throttling
classification or its message contains the request-rate substring.
Compared against the source-derived isThrottling in the C3 theorem. -/
def specRetryable (e : JsErr) : Prop :=
  e.name = "ThrottlingException" ∨ "Your request rate is too high".data <:+: e.message.data

/-- Observable outcome of one run of callBedrockWithRetry: how many times
bedrockClient.send was invoked, the backoff durations awaited (in order),
and the final returned value or thrown error. -/
structure RunResult (α : Type) where
  invocations : Nat
  waits : List ℚ
  outcome : Except JsErr α

/-- The retry loop body. op gives the outcome of bedrockClient.send on each
attempt index; jitter gives the Math.random() * 250 sample drawn before each
attempt. fuel counts the remaining loop iterations (maxRetries + 1 - attempt)
and last carries the lastError variable. -/
def retryLoop {α : Type} (op : Nat → Except JsErr α) (jitter : Nat → ℚ) :
    Nat → Nat → Option JsErr → RunResult α
  | _, 0, lastError => ⟨0, [], Except.error (lastError.getD ⟨"", ""⟩)⟩
  | attempt, fuel + 1, _last =>
    let ws : List ℚ :=
      if attempt = 0 then [] else [500 * 2 ^ (attempt - 1) + jitter attempt]
    match op attempt with
    | Except.ok a => ⟨1, ws, Except.ok a⟩
    | Except.error e =>
      if isThrottling e then
        let r := retryLoop op jitter (attempt + 1) fuel (some e)
        ⟨r.invocations + 1, ws ++ r.waits, r.outcome⟩
      else
        ⟨1, ws, Except.error e⟩

/-- callBedrockWithRetry(command, maxRetries): the loop runs attempt = 0 up
to maxRetries; before every attempt after the first it awaits
500 * 2 ^ (attempt - 1) + jitter; a throttling error sets lastError and
continues, any other error is rethrown at once; an exhausted loop throws
lastError. -/
def callBedrockWithRetry {α : Type} (op : Nat → Except JsErr α) (jitter : Nat → ℚ)
    (maxRetries : Nat) : RunResult α :=
  retryLoop op jitter 0 (maxRetries + 1) none

/-! ## Request handler (POST /api/chat) -/

/-- A parsed JSON field value, as far as the handler inspects one. -/
inductive JsValue
  | vstr : String → JsValue
  | vnum : Int → JsValue
  | vbool : Bool → JsValue
  | vnull : JsValue
deriving DecidableEq

/-- JavaScript truthiness of the modelled values: the empty string, 0,
false and null are falsy. -/
def truthy : JsValue → Bool
  | JsValue.vstr s => s != ""
  | JsValue.vnum n => n != 0
  | JsValue.vbool b => b
  | JsValue.vnull => false

/-- Truthiness of a possibly absent field (undefined is falsy). -/
def truthyOpt : Option JsValue → Bool
  | none => false
  | some v => truthy v

/-- Whether a possibly absent field holds a text value (the typeof test). -/
def isTextValue : Option JsValue → Bool
  | some (JsValue.vstr _) => true
  | _ => false

/-- The validation test of the handler: the question field is falsy or is
not a text value. -/
def missingQuestion (q : Option JsValue) : Bool :=
  !truthyOpt q || !isTextValue q

/-- The string content of a validated question field. -/
def questionText : Option JsValue → String
  | some (JsValue.vstr s) => s
  | _ => ""

/-- JavaScript String.prototype.trim: strip leading and trailing whitespace. -/
def jsTrim (s : String) : String :=
  ⟨((s.data.dropWhile Char.isWhitespace).reverse.dropWhile Char.isWhitespace).reverse⟩

/-- effectiveSessionId: keep a caller string whose trim is non-empty,
otherwise substitute the crypto.randomUUID() result, modelled by the
freshId argument. -/
def effectiveSessionId (sessionId : Option JsValue) (freshId : String) : String :=
  match sessionId with
  | some (JsValue.vstr s) => if jsTrim s != "" then s else freshId
  | _ => freshId

def AGENT_ID : String := "HYEOBH27GN"

def AGENT_ALIAS_ID : String := "HKYBMPQHTH"

/-- The outbound call description built by the handler. -/
structure InvokeAgentCommand where
  agentId : String
  agentAliasId : String
  sessionId : String
  inputText : String
deriving DecidableEq

/-- One event of the streamed completion; chunkBytes is the decoded text of
event.chunk?.bytes, absent when the event carries no byte payload. -/
structure StreamEvent where
  chunkBytes : Option String
deriving DecidableEq

/-- The result of a successful send: completion is the streamed sequence of
events, absent when response.completion is undefined. -/
structure AgentResponse where
  completion : Option (List StreamEvent)
deriving DecidableEq

/-- The accumulation loop: reply starts empty and every event with a byte
payload appends its decoded text, in arrival order. -/
def accumulateReply (resp : AgentResponse) : String :=
  match resp.completion with
  | none => ""
  | some evs => evs.foldl (fun acc ev => acc ++ ev.chunkBytes.getD "") ""

def fallbackReply : String :=
  "Sorry, I could not get a response from the Finance Agent."

/-- if (!reply.trim()) substitute the fixed fallback message. -/
def finalReply (resp : AgentResponse) : String :=
  if jsTrim (accumulateReply resp) == "" then fallbackReply else accumulateReply resp

def missingQuestionError : String := "Missing \"question\" in request body"

def genericFailureMessage : String :=
  "Failed to contact the Finance Agent due to rate limiting or another error."

/-- A JSON response body: either the error object or the reply object with
exactly the reply and sessionId fields. -/
inductive ResponseBody
  | errObj : String → ResponseBody
  | chatObj : (reply : String) → (sessionId : String) → ResponseBody
deriving DecidableEq

/-- An HTTP response as produced by NextResponse.json(body, status). -/
structure HttpResult where
  status : Nat
  body : ResponseBody
deriving DecidableEq

/-- Effects of one handler run, in program order: the completed cadence
acquisition for the effective session, then one outbound send per retry
attempt. -/
inductive HandlerEvent
  | cadenceAcquired : String → HandlerEvent
  | outboundCall : InvokeAgentCommand → HandlerEvent
deriving DecidableEq

/-- The POST handler: validate the question, resolve the effective session
identifier, acquire the cadence limiter, build the command, run the retry
wrapper (maxRetries defaulting to 2), accumulate the streamed reply, and
map the outcome to an HTTP result. freshId models crypto.randomUUID(),
jitter the backoff samples and op the per-attempt send outcomes. The
second component records the effect order for the temporal claim. -/
def chatHandler (question sessionId : Option JsValue) (freshId : String)
    (jitter : Nat → ℚ) (op : Nat → Except JsErr AgentResponse) :
    HttpResult × List HandlerEvent :=
  if missingQuestion question then
    (⟨400, ResponseBody.errObj missingQuestionError⟩, [])
  else
    let sid := effectiveSessionId sessionId freshId
    let command : InvokeAgentCommand := ⟨AGENT_ID, AGENT_ALIAS_ID, sid, questionText question⟩
    let run := callBedrockWithRetry op jitter 2
    let events := HandlerEvent.cadenceAcquired sid ::
      List.replicate run.invocations (HandlerEvent.outboundCall command)
    match run.outcome with
    | Except.ok resp => (⟨200, ResponseBody.chatObj (finalReply resp) sid⟩, events)
    | Except.error e =>
      (⟨500, ResponseBody.errObj (if e.message != "" then e.message else genericFailureMessage)⟩,
       events)

/-! ## Top-crypto route (GET) -/

/-- One upstream 24hr ticker, with the numeric fields already parsed as the
route parses them (Number(d.quoteVolume || 0) maps a missing quote volume
to 0, so quoteVolume is total here). -/
structure Ticker where
  symbol : String
  lastPrice : ℚ
  priceChangePercent : ℚ
  volume : ℚ
  quoteVolume : ℚ
deriving DecidableEq

/-- Suffix test modelling JavaScript String.prototype.endsWith. -/
def endsWithStr (pat s : String) : Bool :=
  decide (pat.data <:+ s.data)

/-- The filter of the route: keep USDT pairs and drop leveraged tokens. -/
def keptSymbol (s : String) : Bool :=
  endsWithStr "USDT" s && !hasSubstr "UP" s && !hasSubstr "DOWN" s &&
  !hasSubstr "BULL" s && !hasSubstr "BEAR" s

/-- The sort comparator (a, b) => Number(b.quoteVolume || 0) - Number(a.quoteVolume || 0)
orders by non-increasing quote volume. -/
def volumeDesc (a b : Ticker) : Bool :=
  decide (b.quoteVolume ≤ a.quoteVolume)

/-- usdtPairs: filter then sort by descending quote volume. -/
def usdtPairs (data : List Ticker) : List Ticker :=
  (data.filter fun d => keptSymbol d.symbol).mergeSort volumeDesc

/-- One entry of the returned coins list. -/
structure CoinEntry where
  symbol : String
  lastPrice : ℚ
  priceChangePercent : ℚ
  volume : ℚ
deriving DecidableEq

/-- Projection applied by the route to each kept ticker. -/
def coinOfTicker (d : Ticker) : CoinEntry :=
  ⟨d.symbol, d.lastPrice, d.priceChangePercent, d.volume⟩

/-- top25 = usdtPairs.slice(0, 25).map(...): the coins list of the response. -/
def top25 (data : List Ticker) : List CoinEntry :=
  ((usdtPairs data).take 25).map coinOfTicker

/-! ## Theorems -/

/-- C1: the required wait of enforceCadence equals
max(sessionReadyAt - now, globalReadyAt - now, 0) with sessionReadyAt built
from the last session call (missing entry defaulting to 0) and globalReadyAt
from the last global call; under serialized invocation a permitted call
recorded at ts is at least SESSION_DELAY after the last recorded call of the
same session and at least GLOBAL_DELAY after the last recorded call of any
session, the call records ts into both pacing slots, and calls of other
sessions leave the session slot unchanged (so consecutive recorded
timestamps of one session differ by at least SESSION_DELAY, and consecutive
recorded global timestamps differ by at least GLOBAL_DELAY). -/
theorem cadence_wait_and_spacing (st : CadenceState) (sid : String) (now ts : Nat)
    (h : sleepElapsed st sid now ts) :
    waitFor st sid now = specRequiredWait st sid now ∧
    (sessionLast st sid : Int) + SESSION_DELAY ≤ (ts : Int) ∧
    (st.lastGlobalCall : Int) + GLOBAL_DELAY ≤ (ts : Int) ∧
    sessionLast (enforceCadence st sid ts) sid = ts ∧
    (enforceCadence st sid ts).lastGlobalCall = ts ∧
    ∀ sid' ts', sid' ≠ sid → sessionLast (enforceCadence st sid' ts') sid = sessionLast st sid := by
  have hs : sessionLag st sid now ≤ waitFor st sid now :=
    le_trans (le_max_left _ _) (le_max_left _ _)
  have hg : globalLag st now ≤ waitFor st sid now :=
    le_trans (le_max_right _ _) (le_max_left _ _)
  have h' : (now : Int) + waitFor st sid now ≤ (ts : Int) := h
  refine ⟨rfl, ?_, ?_, ?_, rfl, ?_⟩
  · simp only [sessionLag, SESSION_DELAY] at hs ⊢
    omega
  · simp only [globalLag, GLOBAL_DELAY] at hg ⊢
    omega
  · simp [enforceCadence, recordCall, sessionLast]
  · intro sid' ts' hne
    have hne' : sid ≠ sid' := fun hh => hne hh.symm
    simp [enforceCadence, recordCall, sessionLast, hne']

/-- Witness for C1 at the initial pacing state. -/
theorem cadence_wait_and_spacing_witness :
    waitFor ⟨fun _ => none, 0⟩ "a" 0 = specRequiredWait ⟨fun _ => none, 0⟩ "a" 0 ∧
    (sessionLast ⟨fun _ => none, 0⟩ "a" : Int) + SESSION_DELAY ≤ (2000 : Int) ∧
    ((⟨fun _ => none, 0⟩ : CadenceState).lastGlobalCall : Int) + GLOBAL_DELAY ≤ (2000 : Int) ∧
    sessionLast (enforceCadence ⟨fun _ => none, 0⟩ "a" 2000) "a" = 2000 ∧
    (enforceCadence ⟨fun _ => none, 0⟩ "a" 2000).lastGlobalCall = 2000 ∧
    ∀ sid' ts', sid' ≠ "a" →
      sessionLast (enforceCadence ⟨fun _ => none, 0⟩ sid' ts') "a" =
        sessionLast ⟨fun _ => none, 0⟩ "a" :=
  cadence_wait_and_spacing ⟨fun _ => none, 0⟩ "a" 0 2000 (by unfold sleepElapsed; decide)

/-- Helper: a run whose every remaining attempt throttles consumes all fuel
and ends with the error of the last attempt. -/
theorem retryLoop_all_throttle {α : Type} (op : Nat → Except JsErr α) (jitter : Nat → ℚ)
    (eF : Nat → JsErr) :
    ∀ fuel a lastE,
      (∀ i, i < fuel → op (a + i) = Except.error (eF (a + i)) ∧ isThrottling (eF (a + i)) = true) →
      (retryLoop op jitter a fuel lastE).invocations = fuel ∧
      (retryLoop op jitter a fuel lastE).outcome =
        Except.error (match fuel with
          | 0 => lastE.getD ⟨"", ""⟩
          | m + 1 => eF (a + m)) := by
  intro fuel
  induction fuel with
  | zero => intro a lastE _; exact ⟨rfl, rfl⟩
  | succ m ih =>
    intro a lastE hall
    obtain ⟨hop, hth⟩ := hall 0 (Nat.succ_pos m)
    rw [Nat.add_zero] at hop hth
    have hshift : ∀ i, i < m →
        op (a + 1 + i) = Except.error (eF (a + 1 + i)) ∧ isThrottling (eF (a + 1 + i)) = true := by
      intro i hi
      have := hall (i + 1) (Nat.succ_lt_succ hi)
      have e : a + (i + 1) = a + 1 + i := by omega
      rwa [e] at this
    obtain ⟨hinv, hout⟩ := ih (a + 1) (some (eF a)) hshift
    constructor
    · simp only [retryLoop, hop, hth, if_true]
      omega
    · simp only [retryLoop, hop, hth, if_true]
      rw [hout]
      rcases m with _ | n
      · rfl
      · show Except.error (eF (a + 1 + n)) = Except.error (eF (a + (n + 1)))
        have e : a + 1 + n = a + (n + 1) := by omega
        rw [e]

/-- Helper: a run that throttles k times with fuel to spare and then succeeds
returns that success after k + 1 invocations. -/
theorem retryLoop_throttle_then_ok {α : Type} (op : Nat → Except JsErr α) (jitter : Nat → ℚ)
    (eF : Nat → JsErr) (v : α) :
    ∀ k fuel a lastE, k < fuel →
      (∀ i, i < k → op (a + i) = Except.error (eF (a + i)) ∧ isThrottling (eF (a + i)) = true) →
      op (a + k) = Except.ok v →
      (retryLoop op jitter a fuel lastE).invocations = k + 1 ∧
      (retryLoop op jitter a fuel lastE).outcome = Except.ok v := by
  intro k
  induction k with
  | zero =>
    intro fuel a lastE hlt _ hok
    rcases fuel with _ | m
    · omega
    · rw [Nat.add_zero] at hok
      constructor
      · simp [retryLoop, hok]
      · simp [retryLoop, hok]
  | succ n ih =>
    intro fuel a lastE hlt hall hok
    rcases fuel with _ | m
    · omega
    · obtain ⟨hop, hth⟩ := hall 0 (Nat.succ_pos n)
      rw [Nat.add_zero] at hop hth
      have hshift : ∀ i, i < n →
          op (a + 1 + i) = Except.error (eF (a + 1 + i)) ∧ isThrottling (eF (a + 1 + i)) = true := by
        intro i hi
        have := hall (i + 1) (Nat.succ_lt_succ hi)
        have e : a + (i + 1) = a + 1 + i := by omega
        rwa [e] at this
      have hok' : op (a + 1 + n) = Except.ok v := by
        have e : a + (n + 1) = a + 1 + n := by omega
        rwa [e] at hok
      obtain ⟨hinv, hout⟩ := ih m (a + 1) (some (eF a)) (by omega) hshift hok'
      constructor
      · simp only [retryLoop, hop, hth, if_true]
        omega
      · simp only [retryLoop, hop, hth, if_true]
        exact hout

/-- C2: with maximum retry count maxRetries, an operation that throttles
exactly k times (k at most maxRetries) and then succeeds is invoked k + 1
times and its success is returned; an operation that throttles on every
attempt is invoked maxRetries + 1 times and the last throttling failure is
propagated. -/
theorem retry_invocation_counts {α : Type} (op : Nat → Except JsErr α) (jitter : Nat → ℚ)
    (maxRetries : Nat) (eF : Nat → JsErr) :
    (∀ k v, k ≤ maxRetries →
        (∀ i, i < k → op i = Except.error (eF i) ∧ isThrottling (eF i) = true) →
        op k = Except.ok v →
        (callBedrockWithRetry op jitter maxRetries).outcome = Except.ok v ∧
        (callBedrockWithRetry op jitter maxRetries).invocations = k + 1) ∧
    ((∀ i, i ≤ maxRetries → op i = Except.error (eF i) ∧ isThrottling (eF i) = true) →
        (callBedrockWithRetry op jitter maxRetries).invocations = maxRetries + 1 ∧
        (callBedrockWithRetry op jitter maxRetries).outcome = Except.error (eF maxRetries)) := by
  constructor
  · intro k v hk hall hok
    have := retryLoop_throttle_then_ok op jitter eF v k (maxRetries + 1) 0 none
      (by omega) (by simpa using hall) (by simpa using hok)
    exact ⟨this.2, this.1⟩
  · intro hall
    have := retryLoop_all_throttle op jitter eF (maxRetries + 1) 0 none
      (by intro i hi; simpa using hall i (by omega))
    exact ⟨this.1, by simpa using this.2⟩

/-- C3: a failure is classified retryable exactly when its name equals
ThrottlingException or its message contains the request-rate substring; an
operation whose first failure is not throttling is invoked exactly once,
that failure is propagated, and no backoff wait happens. -/
theorem retry_classification (e' : JsErr) {α : Type} (op : Nat → Except JsErr α)
    (jitter : Nat → ℚ) (maxRetries : Nat) (e : JsErr) :
    (isThrottling e' = true ↔ specRetryable e') ∧
    (op 0 = Except.error e → isThrottling e = false →
      (callBedrockWithRetry op jitter maxRetries).invocations = 1 ∧
      (callBedrockWithRetry op jitter maxRetries).outcome = Except.error e ∧
      (callBedrockWithRetry op jitter maxRetries).waits = []) := by
  constructor
  · simp [isThrottling, specRetryable, hasSubstr, Bool.or_eq_true, decide_eq_true_iff,
      beq_iff_eq, or_comm]
  · intro hop hth
    refine ⟨?_, ?_, ?_⟩ <;> simp [callBedrockWithRetry, retryLoop, hop, hth]

/-- A throttling error as Bedrock raises it. -/
def eThrottle : JsErr := ⟨"ThrottlingException", "Your request rate is too high"⟩

/-- A non-throttling error. -/
def eDenied : JsErr := ⟨"AccessDeniedException", "forbidden"⟩

/-- A probe operation failing twice with throttling and then succeeding. -/
def opTwoThrottleThenOk : Nat → Except JsErr Nat :=
  fun n => if n < 2 then Except.error eThrottle else Except.ok 42

/-- A probe operation that always throttles. -/
def opAllThrottle : Nat → Except JsErr Nat :=
  fun _ => Except.error eThrottle

/-- A probe operation that fails at once with a non-throttling error. -/
def opNonThrottle : Nat → Except JsErr Nat :=
  fun _ => Except.error eDenied

/-- The degenerate jitter sampling used by the witnesses. -/
def zeroJitter : Nat → ℚ := fun _ => 0

/-- Witness for C2 with k = 2 throttling failures and with permanent
throttling, both at maxRetries = 2. -/
theorem retry_invocation_counts_witness :
    ((callBedrockWithRetry opTwoThrottleThenOk zeroJitter 2).outcome = Except.ok 42 ∧
      (callBedrockWithRetry opTwoThrottleThenOk zeroJitter 2).invocations = 2 + 1) ∧
    ((callBedrockWithRetry opAllThrottle zeroJitter 2).invocations = 2 + 1 ∧
      (callBedrockWithRetry opAllThrottle zeroJitter 2).outcome = Except.error eThrottle) :=
  ⟨(retry_invocation_counts opTwoThrottleThenOk zeroJitter 2 (fun _ => eThrottle)).1 2 42
      (by omega)
      (by
        intro i hi
        refine ⟨?_, by decide⟩
        simp [opTwoThrottleThenOk, hi])
      rfl,
    (retry_invocation_counts opAllThrottle zeroJitter 2 (fun _ => eThrottle)).2
      (fun i _ => ⟨rfl, by decide⟩)⟩

/-- Witness for C3 at a throttling error and a non-throttling first failure. -/
theorem retry_classification_witness :
    (isThrottling eThrottle = true ↔ specRetryable eThrottle) ∧
    ((callBedrockWithRetry opNonThrottle zeroJitter 2).invocations = 1 ∧
      (callBedrockWithRetry opNonThrottle zeroJitter 2).outcome = Except.error eDenied ∧
      (callBedrockWithRetry opNonThrottle zeroJitter 2).waits = []) :=
  ⟨(retry_classification eThrottle opNonThrottle zeroJitter 2 eDenied).1,
    (retry_classification eThrottle opNonThrottle zeroJitter 2 eDenied).2 rfl (by decide)⟩

/-- Helper: the waits of a run are exactly one backoff term for every
non-zero attempt index reached. -/
theorem retryLoop_waits {α : Type} (op : Nat → Except JsErr α) (jitter : Nat → ℚ) :
    ∀ fuel a lastE,
      (retryLoop op jitter a fuel lastE).waits =
        ((List.range' a (retryLoop op jitter a fuel lastE).invocations).filter
            (fun n => n != 0)).map (fun n => 500 * 2 ^ (n - 1) + jitter n) := by
  intro fuel
  induction fuel with
  | zero => intro a lastE; rfl
  | succ m ih =>
    intro a lastE
    rcases hop : op a with e | v
    · by_cases hth : isThrottling e = true
      · have hrec := ih (a + 1) (some e)
        rcases a with _ | a'
        · simp only [retryLoop, hop, hth, if_true, List.range'_succ]
          simp [hrec]
        · simp only [retryLoop, hop, hth, if_true, List.range'_succ]
          simp [hrec]
      · rcases a with _ | a'
        · simp [retryLoop, hop, hth]
        · simp [retryLoop, hop, hth, List.range'_succ]
    · rcases a with _ | a'
      · simp [retryLoop, hop]
      · simp [retryLoop, hop, List.range'_succ]

/-- Helper: dropping the head of an index range is the same as filtering out
index zero. -/
theorem range_filter_nonzero (n : Nat) :
    (List.range n).filter (fun i => i != 0) = (List.range n).drop 1 := by
  rcases n with _ | m
  · rfl
  · rw [List.range_eq_range', List.range'_succ]
    have h1 : ((0 : Nat) != 0) = false := by decide
    rw [List.filter_cons, h1]
    simp only [List.drop_succ_cons, List.drop_zero]
    apply List.filter_eq_self.mpr
    intro x hx
    have : 1 ≤ x := (List.mem_range'_1.mp hx).1
    simp
    omega

/-- C4: provided every jitter sample lies in the interval from 0 up to but
excluding 250, the awaited backoff durations of a run are exactly, for each
attempt index n from 1 up to the last attempt made, the value
500 * 2 ^ (n - 1) + jitter n, in order, and no wait precedes the first
attempt (index 0 contributes no entry); each awaited duration lies in the
half-open interval starting at its base value. -/
theorem retry_backoff_schedule {α : Type} (op : Nat → Except JsErr α) (jitter : Nat → ℚ)
    (maxRetries : Nat) (hj : ∀ n, 0 ≤ jitter n ∧ jitter n < 250) :
    (callBedrockWithRetry op jitter maxRetries).waits =
      ((List.range (callBedrockWithRetry op jitter maxRetries).invocations).drop 1).map
        (fun n => 500 * 2 ^ (n - 1) + jitter n) ∧
    ∀ w ∈ (callBedrockWithRetry op jitter maxRetries).waits,
      ∃ n, 1 ≤ n ∧ n < (callBedrockWithRetry op jitter maxRetries).invocations ∧
        w = 500 * 2 ^ (n - 1) + jitter n ∧
        500 * 2 ^ (n - 1) ≤ w ∧ w < 500 * 2 ^ (n - 1) + 250 := by
  have hw := retryLoop_waits op jitter (maxRetries + 1) 0 none
  have heq : (callBedrockWithRetry op jitter maxRetries).waits =
      ((List.range (callBedrockWithRetry op jitter maxRetries).invocations).drop 1).map
        (fun n => 500 * 2 ^ (n - 1) + jitter n) := by
    simp only [callBedrockWithRetry]
    rw [hw, ← List.range_eq_range', range_filter_nonzero]
  refine ⟨heq, ?_⟩
  intro w hwm
  rw [heq] at hwm
  obtain ⟨n, hn, hfn⟩ := List.mem_map.mp hwm
  have hlt : n < (callBedrockWithRetry op jitter maxRetries).invocations :=
    List.mem_range.mp (List.drop_subset _ _ hn)
  have hn0 : 1 ≤ n := by
    rw [← range_filter_nonzero] at hn
    have := (List.mem_filter.mp hn).2
    simp only [bne_iff_ne, ne_eq] at this
    omega
  obtain ⟨hjl, hju⟩ := hj n
  refine ⟨n, hn0, hlt, hfn.symm, ?_, ?_⟩
  · rw [← hfn]; linarith
  · rw [← hfn]; linarith

/-- Witness for C4 with an operation that throttles on every attempt at
maxRetries = 2 and all jitter samples zero. -/
theorem retry_backoff_schedule_witness :
    (callBedrockWithRetry opAllThrottle zeroJitter 2).waits =
      ((List.range (callBedrockWithRetry opAllThrottle zeroJitter 2).invocations).drop 1).map
        (fun n => 500 * 2 ^ (n - 1) + zeroJitter n) ∧
    ∀ w ∈ (callBedrockWithRetry opAllThrottle zeroJitter 2).waits,
      ∃ n, 1 ≤ n ∧ n < (callBedrockWithRetry opAllThrottle zeroJitter 2).invocations ∧
        w = 500 * 2 ^ (n - 1) + zeroJitter n ∧
        500 * 2 ^ (n - 1) ≤ w ∧ w < 500 * 2 ^ (n - 1) + 250 :=
  retry_backoff_schedule opAllThrottle zeroJitter 2
    (by intro n; unfold zeroJitter; constructor <;> norm_num)

/-- Helper: for a validated request the effect trace is the cadence
acquisition for the effective session followed by one outbound send per
retry attempt, whatever the outcome. -/
theorem chatHandler_events (q sid : Option JsValue) (fid : String) (j : Nat → ℚ)
    (op : Nat → Except JsErr AgentResponse) (hq : missingQuestion q = false) :
    (chatHandler q sid fid j op).2 =
      HandlerEvent.cadenceAcquired (effectiveSessionId sid fid) ::
        List.replicate (callBedrockWithRetry op j 2).invocations
          (HandlerEvent.outboundCall
            ⟨AGENT_ID, AGENT_ALIAS_ID, effectiveSessionId sid fid, questionText q⟩) := by
  simp only [chatHandler, hq, Bool.false_eq_true, if_false]
  cases h : (callBedrockWithRetry op j 2).outcome with
  | error e => simp [h]
  | ok resp => simp [h]

/-- Helper: for a validated request the HTTP result is the 200 reply object
on a successful run and the 500 error object on a failed run. -/
theorem chatHandler_result (q sid : Option JsValue) (fid : String) (j : Nat → ℚ)
    (op : Nat → Except JsErr AgentResponse) (hq : missingQuestion q = false) :
    (∀ resp, (callBedrockWithRetry op j 2).outcome = Except.ok resp →
      (chatHandler q sid fid j op).1 =
        ⟨200, ResponseBody.chatObj (finalReply resp) (effectiveSessionId sid fid)⟩) ∧
    (∀ e, (callBedrockWithRetry op j 2).outcome = Except.error e →
      (chatHandler q sid fid j op).1 =
        ⟨500, ResponseBody.errObj
          (if e.message != "" then e.message else genericFailureMessage)⟩) := by
  constructor
  · intro resp h
    simp only [chatHandler, hq, Bool.false_eq_true, if_false]
    simp [h]
  · intro e h
    simp only [chatHandler, hq, Bool.false_eq_true, if_false]
    simp [h]

/-- A streamed response carrying the chunks He and llo. -/
def probeResponse : AgentResponse := ⟨some [⟨some "He"⟩, ⟨some "llo"⟩]⟩

/-- A probe send that always succeeds with probeResponse. -/
def opAlwaysOk : Nat → Except JsErr AgentResponse := fun _ => Except.ok probeResponse

/-- C5 counterexample: the empty-string question is present and a text
value, yet the handler answers 400 (the claimed equivalence fails in the
direction that validation passes for every present text value). -/
theorem chat_validation_cex :
    isTextValue (some (JsValue.vstr "")) = true ∧
    (chatHandler (some (JsValue.vstr "")) none "u1" zeroJitter opAlwaysOk).1 =
      ⟨400, ResponseBody.errObj missingQuestionError⟩ ∧
    (chatHandler (some (JsValue.vstr "")) none "u1" zeroJitter opAlwaysOk).2 = [] := by
  refine ⟨rfl, ?_, ?_⟩ <;> simp [chatHandler, missingQuestion, truthyOpt, truthy, isTextValue]

/-- C5 amended: the handler answers 400 with the fixed error body, without
acquiring the cadence limiter or issuing an outbound call, exactly when the
question field is missing, not a text value, or the empty text; every
request whose question is a non-empty text value passes validation. -/
theorem chat_validation (q sid : Option JsValue) (fid : String) (j : Nat → ℚ)
    (op : Nat → Except JsErr AgentResponse) :
    (missingQuestion q = true →
      (chatHandler q sid fid j op).1 = ⟨400, ResponseBody.errObj missingQuestionError⟩ ∧
      (chatHandler q sid fid j op).2 = []) ∧
    (missingQuestion q = false → (chatHandler q sid fid j op).1.status ≠ 400) ∧
    (missingQuestion q = false ↔ ∃ s, q = some (JsValue.vstr s) ∧ s ≠ "") := by
  refine ⟨?_, ?_, ?_⟩
  · intro h
    constructor <;> simp [chatHandler, h]
  · intro h
    have h200 := (chatHandler_result q sid fid j op h).1
    have h500 := (chatHandler_result q sid fid j op h).2
    cases hout : (callBedrockWithRetry op j 2).outcome with
    | error e => rw [h500 e hout]; simp
    | ok resp => rw [h200 resp hout]; simp
  · rcases q with _ | (s | n | b | _) <;>
      simp [missingQuestion, truthyOpt, truthy, isTextValue]

/-- Witness for C5 at a missing question and at a non-empty text question. -/
theorem chat_validation_witness :
    ((chatHandler none none "u1" zeroJitter opAlwaysOk).1 =
        ⟨400, ResponseBody.errObj missingQuestionError⟩ ∧
      (chatHandler none none "u1" zeroJitter opAlwaysOk).2 = []) ∧
    (chatHandler (some (JsValue.vstr "hi")) none "u1" zeroJitter opAlwaysOk).1.status ≠ 400 :=
  ⟨(chat_validation none none "u1" zeroJitter opAlwaysOk).1 (by decide),
    (chat_validation (some (JsValue.vstr "hi")) none "u1" zeroJitter opAlwaysOk).2.1 (by decide)⟩

/-- C6 counterexample: the whitespace-only session identifier is a
non-empty text value, yet the handler substitutes the generated identifier
instead of using the caller value verbatim. -/
theorem session_verbatim_cex :
    (chatHandler (some (JsValue.vstr "hi")) (some (JsValue.vstr " ")) "u2" zeroJitter
        opAlwaysOk).1 = ⟨200, ResponseBody.chatObj "Hello" "u2"⟩ ∧
    "u2" ≠ " " ∧ " " ≠ "" := by
  refine ⟨?_, by decide, by decide⟩
  decide

/-- C6 amended: a caller session identifier that is a text value whose trim
is non-empty is used verbatim; when the field is absent, not a text value,
or empty or whitespace-only after trimming, the generated fresh identifier
is used; the effective identifier appears in every outbound command and in
the 200 response body. -/
theorem effective_session_identifier (q sid : Option JsValue) (fid : String) (j : Nat → ℚ)
    (op : Nat → Except JsErr AgentResponse) (hq : missingQuestion q = false) :
    (∀ s, sid = some (JsValue.vstr s) → jsTrim s ≠ "" → effectiveSessionId sid fid = s) ∧
    ((∀ s, sid = some (JsValue.vstr s) → jsTrim s = "") → effectiveSessionId sid fid = fid) ∧
    (∀ cmd, HandlerEvent.outboundCall cmd ∈ (chatHandler q sid fid j op).2 →
      cmd.sessionId = effectiveSessionId sid fid) ∧
    (∀ resp, (callBedrockWithRetry op j 2).outcome = Except.ok resp →
      (chatHandler q sid fid j op).1 =
        ⟨200, ResponseBody.chatObj (finalReply resp) (effectiveSessionId sid fid)⟩) := by
  refine ⟨?_, ?_, ?_, (chatHandler_result q sid fid j op hq).1⟩
  · intro s hs ht
    subst hs
    simp [effectiveSessionId, ht]
  · intro h
    rcases sid with _ | (s | n | b | _) <;> simp [effectiveSessionId]
    have hs := h s rfl
    simp [hs]
  · intro cmd hmem
    rw [chatHandler_events q sid fid j op hq] at hmem
    rcases List.mem_cons.mp hmem with hhead | htail
    · exact absurd hhead (by simp)
    · have := (List.eq_of_mem_replicate htail)
      have hc : cmd = ⟨AGENT_ID, AGENT_ALIAS_ID, effectiveSessionId sid fid, questionText q⟩ := by
        injection this
      rw [hc]

/-- Witness for C6 at a verbatim identifier, a whitespace identifier, an
outbound command and a successful run. -/
theorem effective_session_identifier_witness :
    effectiveSessionId (some (JsValue.vstr "abc")) "u9" = "abc" ∧
    effectiveSessionId (some (JsValue.vstr " ")) "u9" = "u9" ∧
    (⟨AGENT_ID, AGENT_ALIAS_ID, "abc", "hi"⟩ : InvokeAgentCommand).sessionId =
      effectiveSessionId (some (JsValue.vstr "abc")) "u9" ∧
    (chatHandler (some (JsValue.vstr "hi")) (some (JsValue.vstr "abc")) "u9" zeroJitter
        opAlwaysOk).1 =
      ⟨200, ResponseBody.chatObj (finalReply probeResponse)
        (effectiveSessionId (some (JsValue.vstr "abc")) "u9")⟩ :=
  ⟨(effective_session_identifier (some (JsValue.vstr "hi")) (some (JsValue.vstr "abc")) "u9"
      zeroJitter opAlwaysOk (by decide)).1 "abc" rfl (by decide),
    (effective_session_identifier (some (JsValue.vstr "hi")) (some (JsValue.vstr " ")) "u9"
      zeroJitter opAlwaysOk (by decide)).2.1
      (by intro s hs; injection hs with hs'; injection hs' with hs2; rw [← hs2]; decide),
    (effective_session_identifier (some (JsValue.vstr "hi")) (some (JsValue.vstr "abc")) "u9"
      zeroJitter opAlwaysOk (by decide)).2.2.1 ⟨AGENT_ID, AGENT_ALIAS_ID, "abc", "hi"⟩
      (by decide),
    (effective_session_identifier (some (JsValue.vstr "hi")) (some (JsValue.vstr "abc")) "u9"
      zeroJitter opAlwaysOk (by decide)).2.2.2 probeResponse rfl⟩

/-- Helper: events without a byte payload leave the accumulator unchanged,
so the fold equals a fold over just the present payloads. -/
theorem foldl_chunks_filterMap (evs : List StreamEvent) :
    ∀ acc : String,
      evs.foldl (fun acc ev => acc ++ ev.chunkBytes.getD "") acc =
        (evs.filterMap StreamEvent.chunkBytes).foldl (fun a b => a ++ b) acc := by
  induction evs with
  | nil => intro acc; rfl
  | cons ev rest ih =>
    intro acc
    rcases hcb : ev.chunkBytes with _ | s
    · simp [List.filterMap_cons, hcb, ih]
    · simp [List.filterMap_cons, hcb, ih]

/-- C7: the accumulated reply is the concatenation, in arrival order, of the
payloads of the chunks that carry one (payload-free chunks contribute
nothing); a whitespace-only or empty accumulation is replaced by the fixed
fallback message and a non-blank accumulation is returned as is; the chunks
He and llo yield Hello, and a zero-chunk stream or an absent completion
yields the fallback message. -/
theorem reply_accumulation (resp : AgentResponse) (evs : List StreamEvent) :
    accumulateReply ⟨some evs⟩ =
      (evs.filterMap StreamEvent.chunkBytes).foldl (fun a b => a ++ b) "" ∧
    accumulateReply ⟨none⟩ = "" ∧
    (jsTrim (accumulateReply resp) = "" → finalReply resp = fallbackReply) ∧
    (jsTrim (accumulateReply resp) ≠ "" → finalReply resp = accumulateReply resp) ∧
    finalReply ⟨some [⟨some "He"⟩, ⟨some "llo"⟩]⟩ = "Hello" ∧
    finalReply ⟨some []⟩ = fallbackReply ∧
    finalReply ⟨none⟩ = fallbackReply := by
  refine ⟨?_, rfl, ?_, ?_, by decide, rfl, rfl⟩
  · exact foldl_chunks_filterMap evs ""
  · intro h
    simp [finalReply, h]
  · intro h
    simp [finalReply, h]

/-- Witness for C7 at a whitespace-only stream and at the Hello stream. -/
theorem reply_accumulation_witness :
    finalReply ⟨some [⟨some "  "⟩]⟩ = fallbackReply ∧
    finalReply probeResponse = accumulateReply probeResponse :=
  ⟨(reply_accumulation ⟨some [⟨some "  "⟩]⟩ []).2.2.1 (by decide),
    (reply_accumulation probeResponse []).2.2.2.1 (by decide)⟩

/-- C8: for every validated request, any outbound call event in the effect
trace is preceded by the completed cadence acquisition for the same
effective session identifier; no outbound call starts without it. -/
theorem cadence_before_outbound (q sid : Option JsValue) (fid : String) (j : Nat → ℚ)
    (op : Nat → Except JsErr AgentResponse) (hq : missingQuestion q = false) :
    ∀ (i : Nat) (cmd : InvokeAgentCommand),
      ((chatHandler q sid fid j op).2)[i]? = some (HandlerEvent.outboundCall cmd) →
      ∃ k : Nat, k < i ∧
        ((chatHandler q sid fid j op).2)[k]? =
          some (HandlerEvent.cadenceAcquired cmd.sessionId) := by
  intro i cmd hcall
  have hev := chatHandler_events q sid fid j op hq
  rw [hev] at hcall
  rcases i with _ | m
  · simp at hcall
  · refine ⟨0, Nat.succ_pos m, ?_⟩
    rw [hev]
    rw [List.getElem?_cons_succ, List.getElem?_replicate] at hcall
    rcases hsplit : decide
        (m < (callBedrockWithRetry op j 2).invocations) with _ | _
    · rw [if_neg (by simpa using hsplit)] at hcall
      exact absurd hcall (by simp)
    · rw [if_pos (by simpa using hsplit)] at hcall
      have hc : HandlerEvent.outboundCall
          (⟨AGENT_ID, AGENT_ALIAS_ID, effectiveSessionId sid fid, questionText q⟩ :
            InvokeAgentCommand) = HandlerEvent.outboundCall cmd := by
        injection hcall
      have hcmd : cmd =
          ⟨AGENT_ID, AGENT_ALIAS_ID, effectiveSessionId sid fid, questionText q⟩ := by
        injection hc with h1
        exact h1.symm
      rw [hcmd]
      simp

/-- Witness for C8 at a concrete validated request with one outbound call. -/
theorem cadence_before_outbound_witness :
    ∃ k : Nat, k < 1 ∧
      ((chatHandler (some (JsValue.vstr "hi")) (some (JsValue.vstr "abc")) "u3" zeroJitter
          opAlwaysOk).2)[k]? =
        some (HandlerEvent.cadenceAcquired
          (⟨AGENT_ID, AGENT_ALIAS_ID, "abc", "hi"⟩ : InvokeAgentCommand).sessionId) :=
  cadence_before_outbound (some (JsValue.vstr "hi")) (some (JsValue.vstr "abc")) "u3"
    zeroJitter opAlwaysOk (by decide) 1 ⟨AGENT_ID, AGENT_ALIAS_ID, "abc", "hi"⟩ (by decide)

/-- C9: for every validated request, a successful run yields status 200 with
a body holding exactly the reply and the session identifier; a failed run
yields status 500 with an error body carrying the failure message when that
message is non-empty and the generic fallback message when it is empty. -/
theorem response_status_mapping (q sid : Option JsValue) (fid : String) (j : Nat → ℚ)
    (op : Nat → Except JsErr AgentResponse) (hq : missingQuestion q = false) :
    (∀ resp, (callBedrockWithRetry op j 2).outcome = Except.ok resp →
      (chatHandler q sid fid j op).1 =
        ⟨200, ResponseBody.chatObj (finalReply resp) (effectiveSessionId sid fid)⟩) ∧
    (∀ e, (callBedrockWithRetry op j 2).outcome = Except.error e → e.message ≠ "" →
      (chatHandler q sid fid j op).1 = ⟨500, ResponseBody.errObj e.message⟩) ∧
    (∀ e, (callBedrockWithRetry op j 2).outcome = Except.error e → e.message = "" →
      (chatHandler q sid fid j op).1 = ⟨500, ResponseBody.errObj genericFailureMessage⟩) := by
  refine ⟨(chatHandler_result q sid fid j op hq).1, ?_, ?_⟩
  · intro e h hm
    rw [(chatHandler_result q sid fid j op hq).2 e h]
    simp [hm]
  · intro e h hm
    rw [(chatHandler_result q sid fid j op hq).2 e h]
    simp [hm]

/-- A probe send failing at once with a non-throttling error. -/
def opFailDenied : Nat → Except JsErr AgentResponse := fun _ => Except.error eDenied

/-- A probe send failing at once with an error whose message is empty. -/
def opFailBlank : Nat → Except JsErr AgentResponse := fun _ => Except.error ⟨"X", ""⟩

/-- Witness for C9 at a success, a failure with a message and a failure with
an empty message. -/
theorem response_status_mapping_witness :
    (chatHandler (some (JsValue.vstr "hi")) none "u4" zeroJitter opAlwaysOk).1 =
      ⟨200, ResponseBody.chatObj (finalReply probeResponse)
        (effectiveSessionId none "u4")⟩ ∧
    (chatHandler (some (JsValue.vstr "hi")) none "u4" zeroJitter opFailDenied).1 =
      ⟨500, ResponseBody.errObj eDenied.message⟩ ∧
    (chatHandler (some (JsValue.vstr "hi")) none "u4" zeroJitter opFailBlank).1 =
      ⟨500, ResponseBody.errObj genericFailureMessage⟩ :=
  ⟨(response_status_mapping (some (JsValue.vstr "hi")) none "u4" zeroJitter opAlwaysOk
      (by decide)).1 probeResponse rfl,
    (response_status_mapping (some (JsValue.vstr "hi")) none "u4" zeroJitter opFailDenied
      (by decide)).2.1 eDenied rfl (by decide),
    (response_status_mapping (some (JsValue.vstr "hi")) none "u4" zeroJitter opFailBlank
      (by decide)).2.2 ⟨"X", ""⟩ rfl rfl⟩

/-- Helper: the descending-volume comparator is transitive. -/
theorem volumeDesc_trans :
    ∀ a b c : Ticker, volumeDesc a b = true → volumeDesc b c = true → volumeDesc a c = true := by
  intro a b c hab hbc
  simp only [volumeDesc, decide_eq_true_iff] at *
  exact le_trans hbc hab

/-- Helper: the descending-volume comparator is total. -/
theorem volumeDesc_total :
    ∀ a b : Ticker, (volumeDesc a b || volumeDesc b a) = true := by
  intro a b
  simp only [volumeDesc, Bool.or_eq_true, decide_eq_true_iff]
  exact le_total b.quoteVolume a.quoteVolume

/-- C10: the coins list holds at most 25 entries; every entry has a symbol
ending in USDT and containing none of the substrings UP, DOWN, BULL and
BEAR; and the truncated list the entries are projected from is sorted by
non-increasing quote volume of the upstream data. -/
theorem top25_properties (data : List Ticker) :
    (top25 data).length ≤ 25 ∧
    (∀ c ∈ top25 data,
      endsWithStr "USDT" c.symbol = true ∧ hasSubstr "UP" c.symbol = false ∧
      hasSubstr "DOWN" c.symbol = false ∧ hasSubstr "BULL" c.symbol = false ∧
      hasSubstr "BEAR" c.symbol = false) ∧
    List.Sorted (fun a b : Ticker => b.quoteVolume ≤ a.quoteVolume)
      ((usdtPairs data).take 25) := by
  refine ⟨?_, ?_, ?_⟩
  · simp only [top25, List.length_map, List.length_take]
    exact Nat.min_le_left _ _
  · intro c hc
    obtain ⟨d, hd, hproj⟩ := List.mem_map.mp hc
    have hdm : d ∈ usdtPairs data := List.take_subset 25 _ hd
    have hdf : d ∈ data.filter fun x => keptSymbol x.symbol :=
      List.mem_mergeSort.mp hdm
    have hkept : keptSymbol d.symbol = true := (List.mem_filter.mp hdf).2
    have hsym : c.symbol = d.symbol := by rw [← hproj]; rfl
    rw [hsym]
    simp only [keptSymbol, Bool.and_eq_true, Bool.not_eq_true'] at hkept
    exact ⟨hkept.1.1.1.1, hkept.1.1.1.2, hkept.1.1.2, hkept.1.2, hkept.2⟩
  · have hp := List.sorted_mergeSort volumeDesc_trans volumeDesc_total
      (data.filter fun x => keptSymbol x.symbol)
    have hs : List.Sorted (fun a b : Ticker => b.quoteVolume ≤ a.quoteVolume)
        (usdtPairs data) := by
      refine List.Pairwise.imp ?_ hp
      intro a b h
      simpa [volumeDesc, decide_eq_true_iff] using h
    exact hs.take

/-- A probe ticker kept by the filter. -/
def tBTC : Ticker := ⟨"BTCUSDT", 1, 2, 3, 4⟩

/-- Witness for C10 at a one-ticker upstream list. -/
theorem top25_properties_witness :
    (top25 [tBTC]).length ≤ 25 ∧
    (endsWithStr "USDT" (coinOfTicker tBTC).symbol = true ∧
      hasSubstr "UP" (coinOfTicker tBTC).symbol = false ∧
      hasSubstr "DOWN" (coinOfTicker tBTC).symbol = false ∧
      hasSubstr "BULL" (coinOfTicker tBTC).symbol = false ∧
      hasSubstr "BEAR" (coinOfTicker tBTC).symbol = false) :=
  ⟨(top25_properties [tBTC]).1,
    (top25_properties [tBTC]).2.1 (coinOfTicker tBTC)
      (by
        have hfil : ([tBTC] : List Ticker).filter (fun d => keptSymbol d.symbol) = [tBTC] := by
          rw [List.filter_cons_of_pos (by decide), List.filter_nil]
        rw [top25, usdtPairs, hfil, List.mergeSort_singleton]
        simp)⟩
